import Mathlib

/-!
# Verification of the SymPol2d symmetry/stacking library

Shallow embedding of the SymPol2d sources (`sympol2d/symmetry.py`,
`sympol2d/scanner.py`, `sympol2d/utils.py`, `sympol2d/builder.py`,
`sympol2d/poscar_io.py`) and proofs about the spec's claims.

Modelling choices:

* Floating-point values are modelled as exact real numbers.  Every number the
  symmetry code manipulates lies in the quadratic field ℚ[√3] (the operation
  matrices have entries in {0, ±1, ±1/2, ±√3/2} and stacking vectors are
  rational), so we represent such numbers exactly as pairs `a + b·√3` with
  `a b : ℚ` (type `Q3`).  Ordering, absolute value and floor on `Q3` are
  decidable and computed exactly, which keeps every definition executable.
* `np.rint` (round half to even) is modelled as `⌊x + 1/2⌋`.  The two differ
  only at exact half-integers, where the distance to the rounded value is
  exactly 1/2 under both conventions, so `|x - rint x| ≤ atol` is unaffected
  for every tolerance below 1/2 (the code uses 1e-8 and 1e-6).
* Python dictionaries keyed by operation name are modelled as association
  lists; for duplicated catalogue names (e.g. `C3` listed twice for `p3m1`)
  the dictionary entry and every association-list entry carry the same value,
  so predicates over the entries coincide.
-/

/-- Numbers of the form `a + b·√3` with `a b : ℚ`: the exact-arithmetic model
of the floating-point values occurring in the symmetry code. -/
structure Q3 where
  a : ℚ
  b : ℚ
deriving DecidableEq

namespace Q3

def ofRat (q : ℚ) : Q3 := ⟨q, 0⟩

def ofInt (n : ℤ) : Q3 := ⟨(n : ℚ), 0⟩

/-- The value `√3` itself. -/
def sqrt3 : Q3 := ⟨0, 1⟩

instance : Zero Q3 := ⟨⟨0, 0⟩⟩
instance : One Q3 := ⟨⟨1, 0⟩⟩
instance : Add Q3 := ⟨fun x y => ⟨x.a + y.a, x.b + y.b⟩⟩
instance : Neg Q3 := ⟨fun x => ⟨-x.a, -x.b⟩⟩
instance : Sub Q3 := ⟨fun x y => ⟨x.a - y.a, x.b - y.b⟩⟩
instance : Mul Q3 := ⟨fun x y => ⟨x.a * y.a + 3 * x.b * y.b, x.a * y.b + x.b * y.a⟩⟩

/-- Decidable test for `0 ≤ a + b·√3`, by sign analysis and squaring. -/
def nonneg (x : Q3) : Bool :=
  if 0 ≤ x.b then
    (if 0 ≤ x.a then true else decide (x.a ^ 2 ≤ 3 * x.b ^ 2))
  else
    (if x.a < 0 then false else decide (3 * x.b ^ 2 ≤ x.a ^ 2))

def leB (x y : Q3) : Bool := nonneg (y - x)

def ltB (x y : Q3) : Bool := !(leB y x)

def absQ (x : Q3) : Q3 := if nonneg x then x else -x

/-- Exact `⌊√q⌋` for a nonnegative rational `q = num/den` (reduced):
`√(num/den) = √(num·den)/den`, so the floor is `Nat.sqrt (num·den) / den`. -/
def ratSqrtFloor (q : ℚ) : ℤ :=
  ((Nat.sqrt (q.num.toNat * q.den)) : ℤ) / (q.den : ℤ)

/-- Exact `⌊b·√3⌋` for rational `b` (for `b ≠ 0` the value `b√3` is
irrational, so `⌊-b√3⌋ = -⌊b√3⌋ - 1`). -/
def sqrt3Floor (b : ℚ) : ℤ :=
  if b = 0 then 0
  else if 0 ≤ b then ratSqrtFloor (3 * b ^ 2)
  else -ratSqrtFloor (3 * b ^ 2) - 1

/-- Exact floor of `a + b·√3`.  The initial estimate `⌊a⌋ + ⌊b√3⌋` is within
`[x-2, x]`; the exact comparisons pick the true floor from the bracket. -/
def floorQ (x : Q3) : ℤ :=
  let k0 := ⌊x.a⌋ + sqrt3Floor x.b
  if ltB x (ofInt k0) then k0 - 1
  else if ltB x (ofInt (k0 + 1)) then k0
  else if ltB x (ofInt (k0 + 2)) then k0 + 1
  else k0 + 2

/-- Model of `np.rint`: nearest integer (half-integers round up; see the
header note — indistinguishable from round-half-even at tolerances < 1/2). -/
def rint (x : Q3) : ℤ := floorQ (x + ofRat (1 / 2))

end Q3

/-! ## Symmetry model (`sympol2d/symmetry.py`) -/

/-- 2D vectors over `Q3` (fractional stacking vectors and their images). -/
def Vec2 : Type := Q3 × Q3

instance : DecidableEq Vec2 := instDecidableEqProd

/-- A 2×2 matrix over `Q3`, row major: `[[a, b], [c, d]]`. -/
structure Mat2 where
  a : Q3
  b : Q3
  c : Q3
  d : Q3
deriving DecidableEq

def Mat2.mulVec (M : Mat2) (v : Vec2) : Vec2 :=
  (M.a * v.1 + M.b * v.2, M.c * v.1 + M.d * v.2)

def Mat2.add (M N : Mat2) : Mat2 := ⟨M.a + N.a, M.b + N.b, M.c + N.c, M.d + N.d⟩

/-- `np.eye(2)`. -/
def matE : Mat2 := ⟨1, 0, 0, 1⟩

/-- Shorthands for the matrix entries `1/2` and `√3/2`. -/
def hf : Q3 := Q3.ofRat (1 / 2)
def s32 : Q3 := ⟨0, 1 / 2⟩

/-- The `OPER` dictionary: 2×2 linear parts of the in-plane operations.
Unknown names yield `none` (a `KeyError` in Python; never reached from the
layer-group catalogues, whose names are all present). -/
def OPER : String → Option Mat2
  | "E" => some ⟨1, 0, 0, 1⟩
  | "C2" => some ⟨-1, 0, 0, -1⟩
  | "Mx" => some ⟨1, 0, 0, -1⟩
  | "My" => some ⟨-1, 0, 0, 1⟩
  | "C6" => some ⟨hf, -s32, s32, hf⟩
  | "C3" => some ⟨-hf, -s32, s32, -hf⟩
  | "C4" => some ⟨0, -1, 1, 0⟩
  | _ => none

/-- The `LAYER_GROUP_OPERATIONS` dictionary. -/
def LAYER_GROUP_OPERATIONS : String → Option (List String)
  | "p2mm" => some ["E", "C2", "Mx", "My"]
  | "pman" => some ["E", "C2", "Mx", "My"]
  | "pmmm" => some ["E", "C2", "Mx", "My"]
  | "cmmm" => some ["E", "C2", "Mx", "My"]
  | "pmm2" => some ["E", "C2", "Mx", "My"]
  | "cmm2" => some ["E", "C2", "Mx", "My"]
  | "p1" => some ["E"]
  | "p-1" => some ["E", "C2"]
  | "p2" => some ["E", "C2"]
  | "pm" => some ["E", "My"]
  | "pg" => some ["E", "My"]
  | "cm" => some ["E", "My"]
  | "p2mg" => some ["E", "C2", "Mx", "My"]
  | "p2gg" => some ["E", "C2"]
  | "c2mm" => some ["E", "C2", "Mx", "My"]
  | "p-6m2" => some ["E", "C6", "C3", "C2", "Mx", "My"]
  | "p6mm" => some ["E", "C6", "C3", "C2", "Mx", "My"]
  | "p3m1" => some ["E", "C3", "C3", "Mx", "My"]
  | "p31m" => some ["E", "C3", "C3", "Mx", "My"]
  | "p3" => some ["E", "C3", "C3"]
  | "p-3" => some ["E", "C3", "C3", "C2"]
  | "p-3m1" => some ["E", "C3", "C3", "C2", "Mx", "My"]
  | "p-31m" => some ["E", "C3", "C3", "C2", "Mx", "My"]
  | "p4" => some ["E", "C4", "C2"]
  | "p4mm" => some ["E", "C4", "C2", "Mx", "My"]
  | "p-4m2" => some ["E", "C4", "C2", "Mx", "My"]
  | "p-4" => some ["E", "C4", "C2"]
  | "p6" => some ["E", "C6", "C3", "C2"]
  | "p-6" => some ["E", "C6", "C3", "C2"]
  | _ => none

/-- The `Z_SIGN_FLIP_EXPECTED` dictionary. -/
def Z_SIGN_FLIP_EXPECTED : String → Option Bool
  | "p-6m2" => some true
  | "p6mm" => some true
  | "p3m1" => some true
  | "p31m" => some true
  | "p-3m1" => some true
  | "p-31m" => some true
  | "p-6" => some true
  | "p6" => some true
  | "p3" => some true
  | "p-3" => some true
  | "p-1" => some true
  | "p2mm" => some false
  | "pman" => some false
  | "pmmm" => some false
  | "cmmm" => some false
  | "pmm2" => some false
  | "cmm2" => some false
  | "c2mm" => some false
  | "p2mg" => some false
  | "p2" => some false
  | "p2gg" => some false
  | "p4mm" => some false
  | "p-4m2" => some false
  | "p4" => some false
  | "p-4" => some false
  | "pm" => some false
  | "pg" => some false
  | "cm" => some false
  | "p1" => some false
  | _ => none

/-- `is_integer_vec` on one component: `|x - rint x| ≤ atol`. -/
def isIntNear (x : Q3) (atol : ℚ) : Bool :=
  Q3.leB (Q3.absQ (x - Q3.ofInt (Q3.rint x))) (Q3.ofRat atol)

/-- `is_integer_vec(x, atol)`: all components within `atol` of an integer. -/
def is_integer_vec (v : Vec2) (atol : ℚ) : Bool :=
  isIntNear v.1 atol && isIntNear v.2 atol

/-- `survives(R, tau, atol)`: `(E + R)·τ` is an integer vector.  An unknown
operation name (a `KeyError` in Python, never reached from the catalogues)
is mapped to `false`. -/
def survives (R : String) (tau : Vec2) (atol : ℚ) : Bool :=
  match OPER R with
  | some M => is_integer_vec ((matE.add M).mulVec tau) atol
  | none => false

/-- Legacy `SymmetryOperation` record. -/
structure SymmetryOperation where
  name : String
  matrix : Mat2
  type : String
deriving DecidableEq

/-- ASCII lower-casing (`str.lower()` on the ASCII layer-group symbols). -/
def lowerStr (s : String) : String := String.mk (s.data.map Char.toLower)

/-- Operation kind tag assigned by `_generate_operations`. -/
def opTypeOf (name : String) : String :=
  if name.contains 'M' then "mirror"
  else if name = "E" then "identity"
  else "rotation"

/-- `LayerGroupSymmetry._generate_operations`: unknown groups default to
`['E']` (with a console warning); names missing from `OPER` are skipped
(no catalogue name contains `'^'`). -/
def generateOperations (layer_group : String) : List SymmetryOperation :=
  let op_names := (LAYER_GROUP_OPERATIONS (lowerStr layer_group)).getD ["E"]
  op_names.filterMap fun n => (OPER n).map fun M => ⟨n, M, opTypeOf n⟩

/-- Default tolerance of `test_symmetry_preservation`. -/
def defaultTol : ℚ := 1 / 1000000

/-- `LayerGroupSymmetry.test_symmetry_preservation` as an association list
(name, preserved?).  See the header note on dictionaries vs. lists. -/
def testSymmetryPreservation (layer_group : String) (tau : Vec2) (tol : ℚ) :
    List (String × Bool) :=
  (generateOperations layer_group).map fun op => (op.name, survives op.name tau tol)

/-- `LayerGroupSymmetry.classify_stacking`. -/
def classifyStacking (layer_group : String) (tau : Vec2) : String :=
  let preserved := testSymmetryPreservation layer_group tau defaultTol
  if preserved.all fun p => p.2 then "AA"
  else if (generateOperations layer_group).any
      (fun op => (op.type = "mirror" || op.type = "inversion")
        && !(survives op.name tau defaultTol)) then "polar"
  else "AA"

/-- `LayerGroupSymmetry.get_broken_symmetries`. -/
def getBrokenSymmetries (layer_group : String) (tau : Vec2) : List String :=
  (testSymmetryPreservation layer_group tau defaultTol).filterMap
    fun p => if p.2 then none else some p.1

/-- `LayerGroupSymmetry.get_preserved_symmetries`. -/
def getPreservedSymmetries (layer_group : String) (tau : Vec2) : List String :=
  (testSymmetryPreservation layer_group tau defaultTol).filterMap
    fun p => if p.2 then some p.1 else none

/-! ## Stacking scanner (`sympol2d/scanner.py`) -/

/-- `StackingConfiguration` record produced by the scanner. -/
structure StackingConfiguration where
  tau : Vec2
  type : String
  preserved_symmetries : List String
  broken_symmetries : List String
  polar_direction : Option String
  interlayer_distance : Option ℚ
deriving DecidableEq

/-- `StackingScanner._determine_polar_direction`. -/
def determinePolarDirection (broken_symmetries preserved_symmetries : List String) :
    String :=
  let mx_broken := broken_symmetries.contains "Mx"
  let my_broken := broken_symmetries.contains "My"
  let mxy_broken := broken_symmetries.contains "Mxy"
  let mxy_minus_broken := broken_symmetries.contains "Mxy-"
  let c2_preserved := preserved_symmetries.contains "C2"
  if mx_broken && !my_broken && preserved_symmetries.contains "My" then "x"
  else if my_broken && !mx_broken && preserved_symmetries.contains "Mx" then "y"
  else if mx_broken && my_broken && c2_preserved then "z"
  else if (mxy_broken || mxy_minus_broken) && !(mx_broken && my_broken) then "xy"
  else "general"

/-- The 1-D grid `np.linspace(0, 1, n, endpoint=False)`: the values `i/n`
for `0 ≤ i < n`. -/
def gridPoints (n : ℕ) : List ℚ :=
  (List.range n).map fun i : ℕ => (i : ℚ) / (n : ℚ)

/-- Body of the `scan_grid` double loop at one grid point. -/
def mkConfig (layer_group : String) (interlayer_distance : ℚ) (tau : Vec2) :
    StackingConfiguration :=
  let preserved := testSymmetryPreservation layer_group tau defaultTol
  let preserved_ops := preserved.filterMap fun p => if p.2 then some p.1 else none
  let broken_ops := preserved.filterMap fun p => if p.2 then none else some p.1
  let stacking_type := classifyStacking layer_group tau
  let polar_dir :=
    if stacking_type = "polar" then
      some (determinePolarDirection broken_ops preserved_ops)
    else none
  ⟨tau, stacking_type, preserved_ops, broken_ops, polar_dir, some interlayer_distance⟩

/-- `StackingScanner.scan_grid`: the double loop appends each configuration
to the `AA` list when its type is `'AA'` and to the `polar` list otherwise,
i.e. it partitions the grid's configurations (encounter order preserved). -/
def scanGrid (layer_group : String) (grid_size : ℕ) (interlayer_distance : ℚ) :
    List StackingConfiguration × List StackingConfiguration :=
  let grid := gridPoints grid_size
  let configs := grid.flatMap fun tau_x =>
    grid.map fun tau_y =>
      mkConfig layer_group interlayer_distance (Q3.ofRat tau_x, Q3.ofRat tau_y)
  configs.partition fun c => c.type == "AA"

/-! ## Interlayer-distance estimator (`sympol2d/utils.py`) -/

/-- The `VDW_RADII` table (Å). -/
def VDW_RADII : ℤ → Option ℚ
  | 1 => some (120 / 100)
  | 5 => some (192 / 100)
  | 6 => some (170 / 100)
  | 7 => some (155 / 100)
  | 8 => some (152 / 100)
  | 9 => some (147 / 100)
  | 14 => some (210 / 100)
  | 15 => some (180 / 100)
  | 16 => some (180 / 100)
  | 17 => some (175 / 100)
  | 34 => some (190 / 100)
  | 35 => some (185 / 100)
  | 42 => some (210 / 100)
  | 52 => some (206 / 100)
  | 53 => some (198 / 100)
  | 74 => some (210 / 100)
  | _ => none

/-- `estimate_interlayer_distance`.  `np.unique` is modelled by `dedup`
(sorting is immaterial: only membership-style `any` tests and a running
maximum consume the unique list).  The computed `max_radius` is dead code
in the source and is kept here verbatim. -/
def estimate_interlayer_distance (atomic_numbers : List ℤ) : ℚ :=
  let unique_elements := atomic_numbers.dedup
  let _max_radius := unique_elements.foldl
    (fun m z => match VDW_RADII z with
      | some r => max m r
      | none => m) (17 / 10)
  if unique_elements.any fun z => decide (40 < z) then
    (if unique_elements.any fun z => z == 16 || z == 34 || z == 52 then
      (31 : ℚ) / 10
    else (31 : ℚ) / 10)
  else if unique_elements.any fun z => z == 16 || z == 34 || z == 52 then
    (31 : ℚ) / 10
  else (31 : ℚ) / 10

/-! ## Bilayer builder (`sympol2d/builder.py`) -/

/-- `wrap01(x) = x - floor(x)`: wrap a fractional coordinate to `[0,1)`.
Stated polymorphically so that it can be both executed on `ℚ` and reasoned
about on `ℝ` (the spec quantifies over real inputs). -/
def wrap01 {α : Type} [LinearOrderedRing α] [FloorRing α] (x : α) : α :=
  x - (⌊x⌋ : α)

/-- `mod1(v) = np.mod(v, 1.0) = v - 1·⌊v/1⌋`, the same wrap to `[0,1)`
(`sympol2d/symmetry.py`). -/
def mod1 {α : Type} [LinearOrderedField α] [FloorRing α] (v : α) : α :=
  v - 1 * (⌊v / 1⌋ : α)

/-- One atom row of fractional coordinates. -/
def Coord3 : Type := ℚ × ℚ × ℚ

instance : DecidableEq Coord3 := instDecidableEqProd

/-- The top-layer copy built by `make_bilayer_poscar`: `τ` added to x,y and
`dz_frac` to z, each wrapped by `wrap01`. -/
def topLayerCoords (frac_coords_mono : List Coord3) (tau : ℚ × ℚ) (dz_frac : ℚ) :
    List Coord3 :=
  frac_coords_mono.map fun r =>
    (wrap01 (r.1 + tau.1), wrap01 (r.2.1 + tau.2), wrap01 (r.2.2 + dz_frac))

/-- The stacked coordinate array of `make_bilayer_poscar`
(`np.vstack([top, bottom])` or `np.vstack([bottom, top])`); the POSCAR text
renders exactly these rows, one line each, after the header. -/
def makeBilayerCoords (frac_coords_mono : List Coord3) (tau : ℚ × ℚ)
    (dz_frac : ℚ) (top_first : Bool) : List Coord3 :=
  let bottom := frac_coords_mono
  let top := topLayerCoords frac_coords_mono tau dz_frac
  if top_first then top ++ bottom else bottom ++ top

/-! ## POSCAR reader (`sympol2d/poscar_io.py`)

String primitives (`strip`, `split`, `lower`, numeric parsing) are modelled
character-by-character so that every definition evaluates in the kernel. -/

/-- `str.strip()`: drop leading and trailing whitespace. -/
def stripStr (s : String) : String :=
  String.mk (((s.data.dropWhile Char.isWhitespace).reverse.dropWhile
    Char.isWhitespace).reverse)

/-- Helper for `splitWS`: split a character list on whitespace runs. -/
def splitWSAux : List Char → List Char → List (List Char)
  | [], acc => if acc.isEmpty then [] else [acc.reverse]
  | ch :: cs, acc =>
    if ch.isWhitespace then
      (if acc.isEmpty then splitWSAux cs [] else acc.reverse :: splitWSAux cs [])
    else splitWSAux cs (ch :: acc)

/-- `str.split()` with no argument: whitespace-separated tokens, no empties. -/
def splitWS (s : String) : List String :=
  (splitWSAux s.data []).map String.mk

/-- Leading-sign parse: returns (negative?, rest). -/
def parseSign : List Char → Bool × List Char
  | '-' :: cs => (true, cs)
  | '+' :: cs => (false, cs)
  | cs => (false, cs)

/-- Digit-list to number. -/
def digitsToNat (cs : List Char) : ℕ :=
  cs.foldl (fun n ch => 10 * n + (ch.toNat - '0'.toNat)) 0

/-- Model of Python `float()` on the numeric tokens of a POSCAR: optional
sign, decimal digits with optional fraction part, optional exponent.  The
value is returned as an exact rational. -/
def parseRat? (s : String) : Option ℚ := do
  let (neg, cs) := parseSign s.data
  let d1 := cs.takeWhile Char.isDigit
  let cs := cs.dropWhile Char.isDigit
  let (d2, cs) ←
    match cs with
    | '.' :: rest => some (rest.takeWhile Char.isDigit, rest.dropWhile Char.isDigit)
    | _ => some (([] : List Char), cs)
  if d1.isEmpty && d2.isEmpty then none else
  let (ex, cs) ←
    match cs with
    | 'e' :: rest | 'E' :: rest =>
      let (eneg, r) := parseSign rest
      let ed := r.takeWhile Char.isDigit
      let r := r.dropWhile Char.isDigit
      if ed.isEmpty then none
      else some ((if eneg then -(digitsToNat ed : ℤ) else (digitsToNat ed : ℤ)), r)
    | _ => some ((0 : ℤ), cs)
  if !cs.isEmpty then none else
  let base : ℚ := (digitsToNat d1 : ℚ) + (digitsToNat d2 : ℚ) / ((10 : ℚ) ^ d2.length)
  let v := base * (10 : ℚ) ^ ex
  some (if neg then -v else v)

/-- Model of Python `int()`: optional sign and decimal digits. -/
def parseInt? (s : String) : Option ℤ :=
  match parseSign s.data with
  | (neg, cs) =>
    if cs.isEmpty || !(cs.all Char.isDigit) then none
    else some (if neg then -(digitsToNat cs : ℤ) else (digitsToNat cs : ℤ))

deriving instance DecidableEq for Except

/-- Errors of `load_poscar`: the explicit `ValueError` for a non-Direct
coordinate mode (the spec's InvalidInput), and any other runtime failure
(`IndexError`, unparsable numeric field, ragged array). -/
inductive PoscarError where
  | malformed : PoscarError
  | invalidMode : String → PoscarError
deriving DecidableEq

/-- Parsed POSCAR contents returned by `load_poscar`. -/
structure PoscarData where
  comment : String
  lattice : List Coord3
  symbols : List String
  counts : List ℤ
  coords : List Coord3
  formula : String
deriving DecidableEq

/-- A lattice row: all tokens converted by `float()`; the three rows must
agree in length 3 for `np.array` to form the 3×3 matrix. -/
def parseRow3 (line : String) : Option Coord3 :=
  match (splitWS line).mapM parseRat? with
  | some [x, y, z] => some (x, y, z)
  | _ => none

/-- A coordinate row: the first three tokens (`split()[:3]`) via `float()`. -/
def parseCoordRow (line : String) : Option Coord3 :=
  match ((splitWS line).take 3).mapM parseRat? with
  | some [x, y, z] => some (x, y, z)
  | _ => none

def scaleRow (scale : ℚ) (r : Coord3) : Coord3 :=
  (scale * r.1, scale * r.2.1, scale * r.2.2)

/-- `leadsWith pat cs`: the character list `cs` starts with `pat`
(the character-level form of `str.startswith`). -/
def leadsWith : List Char → List Char → Bool
  | [], _ => true
  | _ :: _, [] => false
  | p :: ps, ch :: cs => p == ch && leadsWith ps cs

/-- `s.startswith(pat)` on strings. -/
def strLeads (pat s : String) : Bool := leadsWith pat.data s.data

/-- Mode test `mode.startswith("direct") or mode.startswith("d")`. -/
def isDirectMode (mode : String) : Bool :=
  strLeads "direct" mode || strLeads "d" mode

/-- Flag test `mode.startswith("selective") or mode.startswith("s")`. -/
def isSelectiveFlag (mode : String) : Bool :=
  strLeads "selective" mode || strLeads "s" mode

/-- Formula string: each symbol concatenated with its count when `> 1`. -/
def buildFormula (symbols : List String) (counts : List ℤ) : String :=
  String.join ((symbols.zip counts).map
    fun p => p.1 ++ (if 1 < p.2 then toString p.2 else ""))

/-- Tail of `load_poscar` after the header has been parsed: check the mode
(the explicit `ValueError` — raised before any coordinate is read), then
read the `n` coordinate lines. -/
def finishPoscar (comment : String) (scale : ℚ) (v1 v2 v3 : Coord3)
    (symbols : List String) (counts : List ℤ) (n : ℕ) (mode : String)
    (body : List String) : Except PoscarError PoscarData :=
  if isDirectMode mode then
    let rows := body.take n
    if rows.length = n then
      match rows.mapM parseCoordRow with
      | some coords =>
        .ok ⟨comment, [scaleRow scale v1, scaleRow scale v2, scaleRow scale v3],
          symbols, counts, coords, buildFormula symbols counts⟩
      | none => .error .malformed
    else .error .malformed
  else .error (.invalidMode mode)

/-- `load_poscar`, on the file's list of raw lines.  The fixed indices
0–7 of the Python code are realised by structural matching on the
stripped, non-empty line list; reading `lines[start+i]` for `i < n` is
realised by `take n` of the remaining lines. -/
def loadPoscar (raw : List String) : Except PoscarError PoscarData :=
  let lines := (raw.map stripStr).filter fun l => l ≠ ""
  match lines with
  | comment :: scaleLine :: r1 :: r2 :: r3 :: symLine :: cntLine :: rest =>
    match parseRat? scaleLine, parseRow3 r1, parseRow3 r2, parseRow3 r3,
        (splitWS cntLine).mapM parseInt? with
    | some scale, some v1, some v2, some v3, some counts =>
      let symbols := splitWS symLine
      let n := (counts.foldl (· + ·) 0).toNat
      match rest with
      | [] => .error .malformed
      | mode0 :: rest2 =>
        if isSelectiveFlag (lowerStr mode0) then
          match rest2 with
          | [] => .error .malformed
          | mode1 :: rest3 =>
            finishPoscar comment scale v1 v2 v3 symbols counts n
              (lowerStr mode1) rest3
        else
          finishPoscar comment scale v1 v2 v3 symbols counts n
            (lowerStr mode0) rest2
    | _, _, _, _, _ => .error .malformed
  | _ => .error .malformed

/-! ## Modelled-from-spec helper -/

/-- Modelled from the spec: the lean scanner module containing the helper
`z_sign_flip_expected` is not among the provided sources (only its table
is, in `sympol2d/symmetry.py`); per §4.3 of the spec the helper "looks up
the static table from §4.1". -/
def z_sign_flip_expected (layer_group : String) : Option Bool :=
  Z_SIGN_FLIP_EXPECTED layer_group

/-! ## Helper lemmas -/

theorem Q3.add_def (x y : Q3) : x + y = ⟨x.a + y.a, x.b + y.b⟩ := rfl

theorem Q3.mul_def (x y : Q3) :
    x * y = ⟨x.a * y.a + 3 * x.b * y.b, x.a * y.b + x.b * y.a⟩ := rfl

theorem Q3.sub_def (x y : Q3) : x - y = ⟨x.a - y.a, x.b - y.b⟩ := rfl

theorem Q3.zero_def : (0 : Q3) = ⟨0, 0⟩ := rfl

theorem Q3.one_def : (1 : Q3) = ⟨1, 0⟩ := rfl

theorem Q3.neg_def (x : Q3) : -x = ⟨-x.a, -x.b⟩ := rfl

theorem Q3.ofRat_inj {p q : ℚ} (h : Q3.ofRat p = Q3.ofRat q) : p = q :=
  congrArg Q3.a h

theorem wrap01_eq_fract (x : ℝ) : wrap01 x = Int.fract x := rfl

theorem mod1_eq_fract (x : ℝ) : mod1 x = Int.fract x := by
  unfold mod1
  rw [div_one, one_mul]
  rfl

/-- C7: `estimate_interlayer_distance` returns exactly 3.1 Å for every list of
atomic numbers, regardless of composition (compositions without a
van-der-Waals-table entry and compositions with transition metals or
chalcogens included): every branch of the heuristic returns the literal. -/
theorem estimate_interlayer_distance_const (atomic_numbers : List ℤ) :
    estimate_interlayer_distance atomic_numbers = 31 / 10 := by
  simp only [estimate_interlayer_distance]
  split <;> split <;> rfl

/-- C8: `wrap01` and `mod1` are idempotent, map every real input into
`[0,1)`, and are invariant under integer shifts. -/
theorem wrap01_mod1_props (x : ℝ) (k : ℤ) :
    wrap01 (wrap01 x) = wrap01 x
    ∧ (0 ≤ wrap01 x ∧ wrap01 x < 1)
    ∧ wrap01 (x + k) = wrap01 x
    ∧ mod1 (mod1 x) = mod1 x
    ∧ (0 ≤ mod1 x ∧ mod1 x < 1)
    ∧ mod1 (x + k) = mod1 x := by
  simp only [wrap01_eq_fract, mod1_eq_fract]
  exact ⟨Int.fract_fract x, ⟨Int.fract_nonneg x, Int.fract_lt_one x⟩,
    Int.fract_add_int x k, Int.fract_fract x,
    ⟨Int.fract_nonneg x, Int.fract_lt_one x⟩, Int.fract_add_int x k⟩

/-- C4: the AB/BA sign-flip lookup returns `True` for `p-6m2`, `p6mm`,
`p3m1`, `p31m`, `p-3m1`, `p-31m`, `p6`, `p-6`, `p3`, `p-3`, `p-1`, and
`False` for `p2mm`, `p4mm`, `p4`, `pm`, `p1`. -/
theorem z_sign_flip_expected_values :
    z_sign_flip_expected "p-6m2" = some true
    ∧ z_sign_flip_expected "p6mm" = some true
    ∧ z_sign_flip_expected "p3m1" = some true
    ∧ z_sign_flip_expected "p31m" = some true
    ∧ z_sign_flip_expected "p-3m1" = some true
    ∧ z_sign_flip_expected "p-31m" = some true
    ∧ z_sign_flip_expected "p6" = some true
    ∧ z_sign_flip_expected "p-6" = some true
    ∧ z_sign_flip_expected "p3" = some true
    ∧ z_sign_flip_expected "p-3" = some true
    ∧ z_sign_flip_expected "p-1" = some true
    ∧ z_sign_flip_expected "p2mm" = some false
    ∧ z_sign_flip_expected "p4mm" = some false
    ∧ z_sign_flip_expected "p4" = some false
    ∧ z_sign_flip_expected "pm" = some false
    ∧ z_sign_flip_expected "p1" = some false := by
  with_unfolding_all decide

/-- C2: for layer group `p-6m2` and τ = (1/3, 1/3), the preservation test
reports `Mx`, `My` (and `E`, `C6`, `C3`) broken and `C2` preserved,
`classify_stacking` returns `polar`, and `_determine_polar_direction`
applied to the broken/preserved lists returns `z`. -/
theorem p6m2_onethird_polar_z :
    testSymmetryPreservation "p-6m2" (Q3.ofRat (1/3), Q3.ofRat (1/3)) defaultTol =
      [("E", false), ("C6", false), ("C3", false), ("C2", true),
        ("Mx", false), ("My", false)]
    ∧ classifyStacking "p-6m2" (Q3.ofRat (1/3), Q3.ofRat (1/3)) = "polar"
    ∧ determinePolarDirection
        (getBrokenSymmetries "p-6m2" (Q3.ofRat (1/3), Q3.ofRat (1/3)))
        (getPreservedSymmetries "p-6m2" (Q3.ofRat (1/3), Q3.ofRat (1/3))) = "z" := by
  refine ⟨?_, ?_, ?_⟩ <;> with_unfolding_all decide

/-- C6: the identity operation `E` goes through the same survival formula as
every other operation, so it is reported preserved at τ exactly when
`2·τ` is an integer vector; in particular at τ = (1/3, 1/3) the identity
appears in the broken-symmetry list of `p-6m2`. -/
theorem identity_same_survival_formula (tau : Vec2) (atol : ℚ) :
    survives "E" tau atol
      = is_integer_vec (Q3.ofRat 2 * tau.1, Q3.ofRat 2 * tau.2) atol
    ∧ "E" ∈ getBrokenSymmetries "p-6m2" (Q3.ofRat (1/3), Q3.ofRat (1/3)) := by
  constructor
  · have h : (matE.add ⟨1, 0, 0, 1⟩).mulVec tau
        = (Q3.ofRat 2 * tau.1, Q3.ofRat 2 * tau.2) := by
      obtain ⟨t1, t2⟩ := tau
      obtain ⟨a1, b1⟩ := t1
      obtain ⟨a2, b2⟩ := t2
      show Prod.mk _ _ = Prod.mk _ _
      simp only [Mat2.mulVec, Mat2.add, matE, Q3.ofRat, Q3.mul_def, Q3.add_def,
        Q3.one_def, Q3.zero_def, Prod.mk.injEq, Q3.mk.injEq]
      refine ⟨⟨?_, ?_⟩, ?_, ?_⟩ <;> ring
    exact h ▸ rfl
  · with_unfolding_all decide

/-- Auxiliary: at a nonnegative tolerance, `0` is within tolerance of an
integer. -/
theorem isIntNear_zero {atol : ℚ} (hatol : 0 ≤ atol) : isIntNear 0 atol = true := by
  unfold isIntNear
  have h1 : Q3.absQ ((0 : Q3) - Q3.ofInt (Q3.rint 0)) = 0 := by
    with_unfolding_all decide
  rw [h1]
  show Q3.nonneg (Q3.ofRat atol - 0) = true
  have h2 : Q3.ofRat atol - 0 = ⟨atol, 0⟩ := by
    rw [Q3.sub_def]
    show Q3.mk _ _ = _
    rw [Q3.mk.injEq]
    constructor <;> simp [Q3.ofRat, Q3.zero_def]
  rw [h2]
  unfold Q3.nonneg
  simp [hatol]

/-- C1: for every stacking vector τ and every layer group whose operation
catalogue contains `C2`, the survival test reports `C2` as preserved:
`Identity + C2` is the zero matrix, so `(Identity + C2)·τ = 0` is an integer
vector for every τ (any nonnegative tolerance). -/
theorem c2_survives_everywhere (g : String) (ops : List String)
    (hg : LAYER_GROUP_OPERATIONS g = some ops) (hC2 : "C2" ∈ ops)
    (tau : Vec2) (atol : ℚ) (hatol : 0 ≤ atol) :
    (OPER "C2").map (matE.add) = some ⟨0, 0, 0, 0⟩
    ∧ survives "C2" tau atol = true := by
  constructor
  · with_unfolding_all decide
  · have h : (matE.add ⟨-1, 0, 0, -1⟩).mulVec tau = ((0 : Q3), (0 : Q3)) := by
      obtain ⟨t1, t2⟩ := tau
      obtain ⟨a1, b1⟩ := t1
      obtain ⟨a2, b2⟩ := t2
      show Prod.mk _ _ = Prod.mk _ _
      simp only [Mat2.mulVec, Mat2.add, matE, Q3.mul_def, Q3.add_def,
        Q3.neg_def, Q3.one_def, Q3.zero_def, Prod.mk.injEq, Q3.mk.injEq]
      refine ⟨⟨?_, ?_⟩, ?_, ?_⟩ <;> ring
    show is_integer_vec ((matE.add ⟨-1, 0, 0, -1⟩).mulVec tau) atol = true
    rw [h]
    show (isIntNear 0 atol && isIntNear 0 atol) = true
    rw [isIntNear_zero hatol]
    rfl

/-- Witness for C1 at the group `p-6m2`, the irrational stacking vector
`(√3, -7/5)` and the source's default tolerance `1e-8`. -/
theorem c2_survives_everywhere_witness :
    (LAYER_GROUP_OPERATIONS "p-6m2" = some ["E", "C6", "C3", "C2", "Mx", "My"]
      ∧ "C2" ∈ ["E", "C6", "C3", "C2", "Mx", "My"]
      ∧ (0 : ℚ) ≤ 1 / 100000000)
    ∧ ((OPER "C2").map (matE.add) = some ⟨0, 0, 0, 0⟩
      ∧ survives "C2" (Q3.sqrt3, Q3.ofRat (-7/5)) (1 / 100000000) = true) :=
  ⟨⟨by with_unfolding_all decide, by with_unfolding_all decide, by norm_num⟩,
    c2_survives_everywhere "p-6m2" ["E", "C6", "C3", "C2", "Mx", "My"]
      (by with_unfolding_all decide) (by with_unfolding_all decide)
      (Q3.sqrt3, Q3.ofRat (-7/5)) (1 / 100000000) (by norm_num)⟩


/-- Auxiliary: `classify_stacking` returns only `'AA'` or `'polar'`. -/
theorem classifyStacking_cases (layer_group : String) (tau : Vec2) :
    classifyStacking layer_group tau = "AA"
    ∨ classifyStacking layer_group tau = "polar" := by
  unfold classifyStacking
  dsimp only
  split
  · exact Or.inl rfl
  · split
    · exact Or.inr rfl
    · exact Or.inl rfl

theorem mkConfig_type (lg : String) (d : ℚ) (tau : Vec2) :
    (mkConfig lg d tau).type = classifyStacking lg tau := rfl

theorem mkConfig_tau (lg : String) (d : ℚ) (tau : Vec2) :
    (mkConfig lg d tau).tau = tau := rfl

/-- Auxiliary: length of a `flatMap` whose pieces all have length `m`. -/
theorem length_flatMap_const {α β : Type} (l : List α) (f : α → List β) (m : ℕ)
    (h : ∀ x ∈ l, (f x).length = m) : (l.flatMap f).length = l.length * m := by
  induction l with
  | nil => simp
  | cons x xs ih =>
    rw [List.flatMap_cons, List.length_append, List.length_cons,
      h x (List.mem_cons_self x xs),
      ih fun y hy => h y (List.mem_cons_of_mem x hy)]
    ring

/-- Auxiliary: membership in the grid-scan configuration list. -/
theorem mem_scan_configs {lg : String} {n : ℕ} {d : ℚ} {c : StackingConfiguration} :
    c ∈ (gridPoints n).flatMap (fun tx => (gridPoints n).map fun ty =>
        mkConfig lg d (Q3.ofRat tx, Q3.ofRat ty))
    ↔ ∃ i j : ℕ, i < n ∧ j < n
        ∧ c = mkConfig lg d
            (Q3.ofRat ((i : ℚ) / (n : ℚ)), Q3.ofRat ((j : ℚ) / (n : ℚ))) := by
  constructor
  · intro hc
    rw [List.mem_flatMap] at hc
    obtain ⟨tx, htx, hc⟩ := hc
    rw [List.mem_map] at hc
    obtain ⟨ty, hty, rfl⟩ := hc
    unfold gridPoints at htx hty
    rw [List.mem_map] at htx hty
    obtain ⟨i, hi, rfl⟩ := htx
    obtain ⟨j, hj, rfl⟩ := hty
    exact ⟨i, j, List.mem_range.mp hi, List.mem_range.mp hj, rfl⟩
  · rintro ⟨i, j, hi, hj, rfl⟩
    apply List.mem_flatMap.mpr
    refine ⟨(i : ℚ) / (n : ℚ), ?_, ?_⟩
    · unfold gridPoints
      exact List.mem_map.mpr ⟨i, List.mem_range.mpr hi, rfl⟩
    · exact List.mem_map.mpr ⟨(j : ℚ) / (n : ℚ), by
        unfold gridPoints
        exact List.mem_map.mpr ⟨j, List.mem_range.mpr hj, rfl⟩, rfl⟩

/-- Auxiliary: a grid coordinate `i/n` with `i < n` never equals 1. -/
theorem grid_coord_ne_one {i n : ℕ} (hi : i < n) :
    Q3.ofRat ((i : ℚ) / (n : ℚ)) ≠ Q3.ofRat 1 := by
  intro h
  have hn : (0 : ℚ) < (n : ℚ) := by
    exact_mod_cast Nat.pos_of_ne_zero (by omega)
  have hlt : (i : ℚ) / (n : ℚ) < 1 := (div_lt_one hn).mpr (by exact_mod_cast hi)
  exact absurd (Q3.ofRat_inj h) (ne_of_lt hlt)

/-- C5: for every layer group and grid size `n`, `scan_grid` evaluates
exactly `n²` stacking vectors, each coordinate being `i/n` with an integer
`0 ≤ i < n` (so never 1), and each evaluated configuration is placed in
exactly one of the `AA` and `polar` result lists. -/
theorem scan_grid_props (layer_group : String) (n : ℕ) (d : ℚ) :
    ((scanGrid layer_group n d).1.length + (scanGrid layer_group n d).2.length
      = n * n)
    ∧ (∀ c ∈ (scanGrid layer_group n d).1, c.type = "AA"
        ∧ ∃ i j : ℕ, i < n ∧ j < n
          ∧ c.tau = (Q3.ofRat ((i : ℚ) / (n : ℚ)), Q3.ofRat ((j : ℚ) / (n : ℚ)))
          ∧ c.tau.1 ≠ Q3.ofRat 1 ∧ c.tau.2 ≠ Q3.ofRat 1)
    ∧ (∀ c ∈ (scanGrid layer_group n d).2, c.type = "polar"
        ∧ ∃ i j : ℕ, i < n ∧ j < n
          ∧ c.tau = (Q3.ofRat ((i : ℚ) / (n : ℚ)), Q3.ofRat ((j : ℚ) / (n : ℚ)))
          ∧ c.tau.1 ≠ Q3.ofRat 1 ∧ c.tau.2 ≠ Q3.ofRat 1)
    ∧ (∀ c : StackingConfiguration,
        ¬(c ∈ (scanGrid layer_group n d).1 ∧ c ∈ (scanGrid layer_group n d).2))
    ∧ (∀ i j : ℕ, i < n → j < n →
        mkConfig layer_group d
            (Q3.ofRat ((i : ℚ) / (n : ℚ)), Q3.ofRat ((j : ℚ) / (n : ℚ)))
          ∈ (scanGrid layer_group n d).1
        ∨ mkConfig layer_group d
            (Q3.ofRat ((i : ℚ) / (n : ℚ)), Q3.ofRat ((j : ℚ) / (n : ℚ)))
          ∈ (scanGrid layer_group n d).2) := by
  have hpart : scanGrid layer_group n d
      = (((gridPoints n).flatMap (fun tx => (gridPoints n).map fun ty =>
            mkConfig layer_group d (Q3.ofRat tx, Q3.ofRat ty))).filter
          (fun c => c.type == "AA"),
        ((gridPoints n).flatMap (fun tx => (gridPoints n).map fun ty =>
            mkConfig layer_group d (Q3.ofRat tx, Q3.ofRat ty))).filter
          (fun c => !(c.type == "AA"))) := by
    unfold scanGrid
    exact List.partition_eq_filter_filter _ _
  rw [hpart]
  refine ⟨?_, ?_, ?_, ?_, ?_⟩
  · rw [← List.length_eq_length_filter_add]
    rw [length_flatMap_const _ _ n (fun x _ => by simp [gridPoints])]
    simp [gridPoints]
  · intro c hc
    rw [List.mem_filter] at hc
    obtain ⟨hc1, hc2⟩ := hc
    obtain ⟨i, j, hi, hj, rfl⟩ := mem_scan_configs.mp hc1
    refine ⟨by simpa using hc2, i, j, hi, hj, rfl, ?_, ?_⟩
    · exact grid_coord_ne_one hi
    · exact grid_coord_ne_one hj
  · intro c hc
    rw [List.mem_filter] at hc
    obtain ⟨hc1, hc2⟩ := hc
    obtain ⟨i, j, hi, hj, rfl⟩ := mem_scan_configs.mp hc1
    have hne : classifyStacking layer_group
        (Q3.ofRat ((i : ℚ) / (n : ℚ)), Q3.ofRat ((j : ℚ) / (n : ℚ))) ≠ "AA" := by
      simpa [mkConfig_type] using hc2
    have hcl := classifyStacking_cases layer_group
      (Q3.ofRat ((i : ℚ) / (n : ℚ)), Q3.ofRat ((j : ℚ) / (n : ℚ)))
    refine ⟨?_, i, j, hi, hj, rfl, grid_coord_ne_one hi, grid_coord_ne_one hj⟩
    rw [mkConfig_type]
    rcases hcl with h | h
    · exact absurd h hne
    · exact h
  · intro c hc
    obtain ⟨hc1, hc2⟩ := hc
    rw [List.mem_filter] at hc1 hc2
    rw [hc1.2] at hc2
    exact absurd hc2.2 (by simp)
  · intro i j hi hj
    have hmem := (@mem_scan_configs layer_group n d _).mpr ⟨i, j, hi, hj, rfl⟩
    by_cases h : (mkConfig layer_group d
        (Q3.ofRat ((i : ℚ) / (n : ℚ)), Q3.ofRat ((j : ℚ) / (n : ℚ)))).type = "AA"
    · exact Or.inl (List.mem_filter.mpr ⟨hmem, by simp [h]⟩)
    · exact Or.inr (List.mem_filter.mpr ⟨hmem, by simp [h]⟩)

/-- Witness for C5 at layer group `p-6m2`, grid size 2: the scan produces
4 configurations and the grid point (1/2, 1/2) lands in one of the lists. -/
theorem scan_grid_props_witness :
    ((scanGrid "p-6m2" 2 (31/10)).1.length + (scanGrid "p-6m2" 2 (31/10)).2.length
      = 2 * 2)
    ∧ (mkConfig "p-6m2" (31/10)
          (Q3.ofRat (((1 : ℕ) : ℚ) / ((2 : ℕ) : ℚ)),
           Q3.ofRat (((1 : ℕ) : ℚ) / ((2 : ℕ) : ℚ)))
        ∈ (scanGrid "p-6m2" 2 (31/10)).1
      ∨ mkConfig "p-6m2" (31/10)
          (Q3.ofRat (((1 : ℕ) : ℚ) / ((2 : ℕ) : ℚ)),
           Q3.ofRat (((1 : ℕ) : ℚ) / ((2 : ℕ) : ℚ)))
        ∈ (scanGrid "p-6m2" 2 (31/10)).2) :=
  ⟨(scan_grid_props "p-6m2" 2 (31/10)).1,
    (scan_grid_props "p-6m2" 2 (31/10)).2.2.2.2 1 1 (by decide) (by decide)⟩

/-- Auxiliary: `wrap01` is the identity on `[0,1)`. -/
theorem wrap01_eq_self {x : ℚ} (h0 : 0 ≤ x) (h1 : x < 1) : wrap01 x = x := by
  unfold wrap01
  rw [Int.floor_eq_zero_iff.mpr (Set.mem_Ico.mpr ⟨h0, h1⟩)]
  simp

/-- C10 counterexample: for the monolayer row (1, 0, 0) (a fractional
coordinate of exactly 1, which `wrap01` sends to 0 in the top copy but
which stays 1 in the bottom copy), the bilayer built with τ = (0,0) and
`dz_frac` = 0 has a top coordinate block that is not a permutation of its
bottom block. -/
theorem bilayer_identical_blocks_counterexample :
    (makeBilayerCoords [((1 : ℚ), 0, 0)] (0, 0) 0 false).take 1 = [((1 : ℚ), 0, 0)]
    ∧ (makeBilayerCoords [((1 : ℚ), 0, 0)] (0, 0) 0 false).drop 1
      = [((0 : ℚ), 0, 0)]
    ∧ ¬ ((makeBilayerCoords [((1 : ℚ), 0, 0)] (0, 0) 0 false).drop 1).Perm
        ((makeBilayerCoords [((1 : ℚ), 0, 0)] (0, 0) 0 false).take 1) := by
  have h1 : (makeBilayerCoords [((1 : ℚ), 0, 0)] (0, 0) 0 false).take 1
      = [((1 : ℚ), 0, 0)] := by with_unfolding_all decide
  have h2 : (makeBilayerCoords [((1 : ℚ), 0, 0)] (0, 0) 0 false).drop 1
      = [((0 : ℚ), 0, 0)] := by with_unfolding_all decide
  refine ⟨h1, h2, ?_⟩
  rw [h1, h2]
  intro hperm
  have heq := List.perm_singleton.mp hperm
  have : ((0 : ℚ), (0 : ℚ), (0 : ℚ)) = ((1 : ℚ), (0 : ℚ), (0 : ℚ)) := by
    injection heq
  rw [Prod.ext_iff] at this
  exact absurd this.1 (by norm_num)

/-- Auxiliary: with τ = (0,0) and `dz_frac` = 0, the top copy equals the
monolayer whenever all fractional coordinates already lie in `[0,1)`. -/
theorem topLayer_id : ∀ mono : List Coord3,
    (∀ r ∈ mono, (0 ≤ r.1 ∧ r.1 < 1) ∧ (0 ≤ r.2.1 ∧ r.2.1 < 1)
      ∧ (0 ≤ r.2.2 ∧ r.2.2 < 1)) →
    topLayerCoords mono (0, 0) 0 = mono := by
  intro mono
  induction mono with
  | nil => intro _; rfl
  | cons r rs ih =>
    intro h
    obtain ⟨⟨hx0, hx1⟩, ⟨hy0, hy1⟩, hz0, hz1⟩ := h r (List.mem_cons_self r rs)
    have htail : topLayerCoords rs (0, 0) 0 = rs :=
      ih fun y hy => h y (List.mem_cons_of_mem r hy)
    show (wrap01 (r.1 + 0), wrap01 (r.2.1 + 0), wrap01 (r.2.2 + 0))
        :: topLayerCoords rs (0, 0) 0 = r :: rs
    rw [htail, add_zero, add_zero, add_zero, wrap01_eq_self hx0 hx1,
      wrap01_eq_self hy0 hy1, wrap01_eq_self hz0 hz1]
    rw [Prod.mk.eta]

/-- C10 (amended): `make_bilayer_poscar` with τ = (0,0) and `dz_frac` = 0
produces identical top and bottom coordinate blocks provided every
monolayer fractional coordinate lies in `[0,1)` (the counterexample above
forces that proviso); the stacked array is then just two copies of the
monolayer rows, for either layer order. -/
theorem bilayer_tau0_blocks (mono : List Coord3)
    (h : ∀ r ∈ mono, (0 ≤ r.1 ∧ r.1 < 1) ∧ (0 ≤ r.2.1 ∧ r.2.1 < 1)
      ∧ (0 ≤ r.2.2 ∧ r.2.2 < 1)) (top_first : Bool) :
    topLayerCoords mono (0, 0) 0 = mono
    ∧ makeBilayerCoords mono (0, 0) 0 top_first = mono ++ mono := by
  have htop := topLayer_id mono h
  refine ⟨htop, ?_⟩
  unfold makeBilayerCoords
  rw [htop]
  cases top_first <;> rfl

/-- Witness for C10's amended theorem on a one-atom monolayer with
coordinates inside `[0,1)`. -/
theorem bilayer_tau0_blocks_witness :
    topLayerCoords [((1 : ℚ)/2, 0, 3/4)] (0, 0) 0 = [((1 : ℚ)/2, 0, 3/4)]
    ∧ makeBilayerCoords [((1 : ℚ)/2, 0, 3/4)] (0, 0) 0 false
      = [((1 : ℚ)/2, 0, 3/4)] ++ [((1 : ℚ)/2, 0, 3/4)] :=
  bilayer_tau0_blocks [((1 : ℚ)/2, 0, 3/4)]
    (by with_unfolding_all decide) false

/-- Auxiliary: the strip-and-drop-empties normalisation is the identity on
already-clean line lists. -/
theorem stripFilter_id (L : List String)
    (h : ∀ l ∈ L, stripStr l = l ∧ l ≠ "") :
    (L.map stripStr).filter (fun l => l ≠ "") = L := by
  induction L with
  | nil => rfl
  | cons x xs ih =>
    obtain ⟨hx1, hx2⟩ := h x (List.mem_cons_self x xs)
    have hxs := ih fun l hl => h l (List.mem_cons_of_mem x hl)
    rw [List.map_cons, List.filter_cons, hx1]
    simp [hx2]
    simpa using hxs

/-- Auxiliary: behaviour of the post-header phase of `load_poscar`:
a `Direct`-prefixed mode yields the parsed data, anything else the
explicit invalid-mode error. -/
theorem finishPoscar_cases (comment : String) (scale : ℚ) (v1 v2 v3 : Coord3)
    (symbols : List String) (counts : List ℤ) (mode : String)
    (coordLines extra : List String) (coords : List Coord3)
    (hcoords : coordLines.mapM parseCoordRow = some coords) :
    (isDirectMode mode = true →
      finishPoscar comment scale v1 v2 v3 symbols counts coordLines.length mode
        (coordLines ++ extra)
      = .ok ⟨comment, [scaleRow scale v1, scaleRow scale v2, scaleRow scale v3],
          symbols, counts, coords, buildFormula symbols counts⟩)
    ∧ (isDirectMode mode = false →
      finishPoscar comment scale v1 v2 v3 symbols counts coordLines.length mode
        (coordLines ++ extra)
      = .error (.invalidMode mode)) := by
  constructor
  · intro hd
    unfold finishPoscar
    rw [hd, List.take_left]
    simp only [if_pos rfl, hcoords, if_true]
  · intro hd
    unfold finishPoscar
    rw [hd]
    simp

/-- C9: on a well-formed fixed-layout VASP5 POSCAR line list (header
parseable, optional selective-dynamics flag line, `N = Σ counts`
coordinate lines), `load_poscar` fails with the invalid-mode error exactly
when the coordinate-mode line (after skipping the optional flag line) does
not start with `d` case-insensitively, and otherwise returns the parsed
comment, scaled lattice, symbols, counts and coordinate rows. -/
theorem load_poscar_mode_gate
    (comment scaleLine r1 r2 r3 symLine cntLine modeLine : String)
    (sel coordLines extra : List String)
    (scale : ℚ) (v1 v2 v3 : Coord3) (counts : List ℤ) (coords : List Coord3)
    (hclean : ∀ l ∈ [comment, scaleLine, r1, r2, r3, symLine, cntLine] ++ sel
        ++ modeLine :: (coordLines ++ extra), stripStr l = l ∧ l ≠ "")
    (hsel : sel = [] ∨ ∃ s, sel = [s] ∧ isSelectiveFlag (lowerStr s) = true)
    (hmode : isSelectiveFlag (lowerStr modeLine) = false)
    (hscale : parseRat? scaleLine = some scale)
    (h1 : parseRow3 r1 = some v1) (h2 : parseRow3 r2 = some v2)
    (h3 : parseRow3 r3 = some v3)
    (hcnt : (splitWS cntLine).mapM parseInt? = some counts)
    (hn : (counts.foldl (· + ·) 0).toNat = coordLines.length)
    (hcoords : coordLines.mapM parseCoordRow = some coords) :
    (isDirectMode (lowerStr modeLine) = true →
      loadPoscar ([comment, scaleLine, r1, r2, r3, symLine, cntLine] ++ sel
          ++ modeLine :: (coordLines ++ extra))
        = .ok ⟨comment, [scaleRow scale v1, scaleRow scale v2, scaleRow scale v3],
            splitWS symLine, counts, coords, buildFormula (splitWS symLine) counts⟩)
    ∧ (isDirectMode (lowerStr modeLine) = false →
      loadPoscar ([comment, scaleLine, r1, r2, r3, symLine, cntLine] ++ sel
          ++ modeLine :: (coordLines ++ extra))
        = .error (.invalidMode (lowerStr modeLine)))
    ∧ ((∃ m, loadPoscar ([comment, scaleLine, r1, r2, r3, symLine, cntLine] ++ sel
          ++ modeLine :: (coordLines ++ extra))
        = .error (.invalidMode m))
      ↔ isDirectMode (lowerStr modeLine) = false) := by
  have hload : loadPoscar ([comment, scaleLine, r1, r2, r3, symLine, cntLine] ++ sel
      ++ modeLine :: (coordLines ++ extra))
      = finishPoscar comment scale v1 v2 v3 (splitWS symLine) counts
          coordLines.length (lowerStr modeLine) (coordLines ++ extra) := by
    unfold loadPoscar
    rw [stripFilter_id _ hclean]
    rcases hsel with hsel | ⟨s, hsel, hs⟩ <;> subst hsel
    · simp only [List.cons_append, List.nil_append]
      rw [hscale, h1, h2, h3, hcnt]
      simp only [hmode, Bool.false_eq_true, if_false, hn]
    · simp only [List.cons_append, List.nil_append, List.singleton_append]
      rw [hscale, h1, h2, h3, hcnt]
      simp only [hs, if_true, hn]
  have hfin := finishPoscar_cases comment scale v1 v2 v3 (splitWS symLine) counts
    (lowerStr modeLine) coordLines extra coords hcoords
  refine ⟨fun hd => by rw [hload]; exact hfin.1 hd,
    fun hd => by rw [hload]; exact hfin.2 hd, ?_⟩
  constructor
  · rintro ⟨m, hm⟩
    by_contra hcontra
    rw [Bool.not_eq_false] at hcontra
    rw [hload, hfin.1 hcontra] at hm
    exact Except.noConfusion hm
  · intro hd
    exact ⟨lowerStr modeLine, by rw [hload]; exact hfin.2 hd⟩

set_option maxRecDepth 8000 in
/-- Witness for C9 on a concrete two-atom `Direct` POSCAR. -/
theorem load_poscar_mode_gate_witness :
    loadPoscar ["hBN", "1.0", "2.5 0.0 0.0", "-1.25 2.165 0.0", "0.0 0.0 20.0",
      "B N", "1 1", "Direct", "0.0 0.0 0.5", "0.333 0.667 0.5"]
      = .ok ⟨"hBN", [((5 : ℚ)/2, 0, 0), (-(5 : ℚ)/4, 433/200, 0), (0, 0, 20)],
          ["B", "N"], [1, 1], [(0, 0, (1 : ℚ)/2), (333/1000, 667/1000, 1/2)],
          "BN"⟩ := by
  have h := (load_poscar_mode_gate "hBN" "1.0" "2.5 0.0 0.0" "-1.25 2.165 0.0"
      "0.0 0.0 20.0" "B N" "1 1" "Direct" [] ["0.0 0.0 0.5", "0.333 0.667 0.5"] []
      1 ((5 : ℚ)/2, 0, 0) (-(5 : ℚ)/4, 433/200, 0) (0, 0, 20) [1, 1]
      [(0, 0, (1 : ℚ)/2), (333/1000, 667/1000, 1/2)]
      (by with_unfolding_all decide) (Or.inl rfl)
      (by with_unfolding_all decide) (by with_unfolding_all decide)
      (by with_unfolding_all decide) (by with_unfolding_all decide)
      (by with_unfolding_all decide) (by with_unfolding_all decide)
      (by with_unfolding_all decide) (by with_unfolding_all decide)).1
      (by with_unfolding_all decide)
  have heq : (["hBN", "1.0", "2.5 0.0 0.0", "-1.25 2.165 0.0", "0.0 0.0 20.0",
      "B N", "1 1", "Direct", "0.0 0.0 0.5", "0.333 0.667 0.5"] : List String)
      = ["hBN", "1.0", "2.5 0.0 0.0", "-1.25 2.165 0.0", "0.0 0.0 20.0",
        "B N", "1 1"] ++ []
        ++ "Direct" :: (["0.0 0.0 0.5", "0.333 0.667 0.5"] ++ []) := by simp
  rw [heq, h]
  with_unfolding_all decide

